import Mathlib

/-!
Verification of the CapsNet layers in `capsnet.py`.

Shallow embedding: tensors are curried functions `Fin d₁ → ... → Fin dₖ → ℝ`
over exact real arithmetic; axes of size 1 that carry no data (the trailing
`(1, 1)` axes of the dense routing tensors) are dropped.  Python's
`routing_iter` argument is `ℤ` so that negative values are representable;
`tf.assert_*` failures become `Except.error`, and the `...` placeholder for
the not-yet-computed routed prediction becomes `Option`.  The number of
`Activations.squash` call sites executed during a routing invocation is
threaded through the routing definitions as an explicit counter.
-/

/-- `keras.backend.epsilon()`: the numerical-stability fuzz factor `1e-7`
added inside the square root in `Activations.squash` (line 20). -/
noncomputable def kerasEpsilon : ℝ := 1 / 10 ^ 7

/-- `square_sum` in `Activations.squash` (line 18): the sum of squares of the
vector along the chosen axis (`tf.reduce_sum(tf.square(_data), axis=axis)`). -/
noncomputable def square_sum {n : ℕ} (v : Fin n → ℝ) : ℝ := ∑ i, v i ^ 2

/-- `squash_factor` in `Activations.squash` (line 19):
`square_sum / (1. + square_sum)`. -/
noncomputable def squash_factor {n : ℕ} (v : Fin n → ℝ) : ℝ :=
  square_sum v / (1 + square_sum v)

/-- `unit_vector` in `Activations.squash` (line 20):
`_data / tf.sqrt(square_sum + k.backend.epsilon())`. -/
noncomputable def unit_vector {n : ℕ} (v : Fin n → ℝ) : Fin n → ℝ :=
  fun i => v i / Real.sqrt (square_sum v + kerasEpsilon)

/-- `Activations.squash` (lines 10-21), acting on one vector along the chosen
axis: `squash_factor * unit_vector`. -/
noncomputable def squash {n : ℕ} (v : Fin n → ℝ) : Fin n → ℝ :=
  fun i => squash_factor v * unit_vector v i

/-- Euclidean length of a vector, used to state the spec's norm claims. -/
noncomputable def vecNorm {n : ℕ} (v : Fin n → ℝ) : ℝ := Real.sqrt (square_sum v)

/-- `tf.reduce_mean(..., axis=-1)` (line 40): arithmetic mean over the class
axis. -/
noncomputable def reduceMean {n : ℕ} (x : Fin n → ℝ) : ℝ := (∑ i, x i) / n

/-- `Losses.margin_loss` (lines 25-41) for one example of the batch.
The Python defaults are `_m_p=0.9`, `_m_n=0.1`, `_lambda=0.5`. -/
noncomputable def margin_loss {n : ℕ} (y_true y_pred : Fin n → ℝ)
    (m_p m_n lam : ℝ) : ℝ :=
  let p_err := fun i => max 0 (m_p - y_pred i)
  let n_err := fun i => max 0 (y_pred i - m_n)
  let p_loss := fun i => y_true i * p_err i ^ 2
  let n_loss := fun i => (1 - y_true i) * n_err i ^ 2
  reduceMean fun i => p_loss i + lam * n_loss i

lemma square_sum_nonneg {n : ℕ} (v : Fin n → ℝ) : 0 ≤ square_sum v :=
  Finset.sum_nonneg fun i _ => sq_nonneg (v i)

lemma kerasEpsilon_pos : 0 < kerasEpsilon := by norm_num [kerasEpsilon]

lemma margin_loss_eq {n : ℕ} (y_true y_pred : Fin n → ℝ) (m_p m_n lam : ℝ) :
    margin_loss y_true y_pred m_p m_n lam =
      (∑ i, (y_true i * max 0 (m_p - y_pred i) ^ 2 +
        lam * ((1 - y_true i) * max 0 (y_pred i - m_n) ^ 2))) / n := rfl

/-- C10: `margin_loss` reduces the per-class terms with the arithmetic mean
over the class axis (division by `num_caps`), so each example's loss is
`1/num_caps` times the sum over classes of
`y_true * max(0, 0.9 - y_pred)^2 + 0.5 * (1 - y_true) * max(0, y_pred - 0.1)^2`. -/
theorem margin_loss_mean_reduction (n : ℕ) (y_true y_pred : Fin n → ℝ) :
    margin_loss y_true y_pred 0.9 0.1 0.5 =
      (1 / (n : ℝ)) *
        ∑ i, (y_true i * max 0 (0.9 - y_pred i) ^ 2 +
          0.5 * (1 - y_true i) * max 0 (y_pred i - 0.1) ^ 2) := by
  rw [margin_loss_eq, one_div, inv_mul_eq_div]
  congr 1
  refine Finset.sum_congr rfl fun i _ => by ring

/-- C7: for a single-class one-hot ground truth whose true class is predicted
with length exactly `1.0` and every other class with length exactly `0.0`, the
margin loss with the defaults `0.9`, `0.1`, `0.5` is exactly `0`. -/
theorem margin_loss_perfect_prediction (n : ℕ) (j : Fin n) :
    margin_loss (fun i => if i = j then 1 else 0) (fun i => if i = j then 1 else 0)
      0.9 0.1 0.5 = 0 := by
  rw [margin_loss_eq, div_eq_zero_iff]
  left
  apply Finset.sum_eq_zero
  intro i _
  by_cases hij : i = j <;> norm_num [hij, max_def]

/-- C8: `squash` is total on the all-zero vector: the divisor
`tf.sqrt(square_sum + epsilon)` is nonzero there (no division by zero), and
the result is again the zero vector. -/
theorem squash_zero_total (n : ℕ) :
    Real.sqrt (square_sum (fun _ : Fin n => (0 : ℝ)) + kerasEpsilon) ≠ 0 ∧
    squash (fun _ : Fin n => (0 : ℝ)) = fun _ => 0 := by
  have hss : square_sum (fun _ : Fin n => (0 : ℝ)) = 0 := by simp [square_sum]
  constructor
  · rw [hss, zero_add]
    exact ne_of_gt (Real.sqrt_pos.mpr kerasEpsilon_pos)
  · funext i
    simp [squash, squash_factor, hss]

/-- Shape of the convolutional routing weight tensor (line 146):
`(batch, rows, cols, caps_filters, input_caps_filters)`.  The index order is
`p : batch`, `q : rows`, `k : cols`, `s : caps_filters`,
`t : input_caps_filters`. -/
abbrev ConvW (b r c f g : ℕ) := Fin b → Fin r → Fin c → Fin f → Fin g → ℝ

/-- Shape of the convolutional prediction tensor (line 118 / docstring of
`CapsConv.dynamic_routing`):
`(batch, rows, cols, input_caps_filters, caps_filters, caps_dims)`. -/
abbrev ConvPred (b r c g f d : ℕ) :=
  Fin b → Fin r → Fin c → Fin g → Fin f → Fin d → ℝ

/-- Shape of the convolutional routed prediction (line 156):
`(batch, rows, cols, caps_filters, caps_dims)`. -/
abbrev ConvRouted (b r c f d : ℕ) := Fin b → Fin r → Fin c → Fin f → Fin d → ℝ

/-- `CapsConv.softmax` (lines 164-175) at the only axis tuple it is called
with, `axis=(1, 2, 3)`: `tf.exp(data) / tf.reduce_sum(tf.exp(data),
axis=(1,2,3), keepdims=True)`.  Axes 1, 2, 3 of the routing weight tensor are
`rows`, `cols` and `caps_filters`, so the denominator fixes the batch index
and the `input_caps_filters` index. -/
noncomputable def convSoftmax {b r c f g : ℕ} (data : ConvW b r c f g) :
    ConvW b r c f g :=
  fun p q k s t =>
    Real.exp (data p q k s t) / ∑ q2, ∑ k2, ∑ s2, Real.exp (data p q2 k2 s2 t)

/-- `tf.nn.softmax(_routing_weights, axis=2)` (line 225), acting on the
vector along the `num_caps` axis. -/
noncomputable def nnSoftmax {N : ℕ} (v : Fin N → ℝ) : Fin N → ℝ :=
  fun j => Real.exp (v j) / ∑ k2, Real.exp (v k2)

lemma exp_sum3_pos {b r c f g : ℕ} (w : ConvW b r c f g) (p : Fin b) (t : Fin g)
    (q0 : Fin r) (k0 : Fin c) (s0 : Fin f) :
    0 < ∑ q, ∑ k, ∑ s, Real.exp (w p q k s t) := by
  have h1 : ∀ q : Fin r, ∀ k : Fin c, 0 < ∑ s, Real.exp (w p q k s t) :=
    fun q k => Finset.sum_pos (fun s _ => Real.exp_pos _) ⟨s0, Finset.mem_univ s0⟩
  have h2 : ∀ q : Fin r, 0 < ∑ k, ∑ s, Real.exp (w p q k s t) :=
    fun q => Finset.sum_pos (fun k _ => h1 q k) ⟨k0, Finset.mem_univ k0⟩
  exact Finset.sum_pos (fun q _ => h2 q) ⟨q0, Finset.mem_univ q0⟩

lemma convSoftmax_nonneg {b r c f g : ℕ} (w : ConvW b r c f g) (p : Fin b)
    (q : Fin r) (k : Fin c) (s : Fin f) (t : Fin g) :
    0 ≤ convSoftmax w p q k s t := by
  unfold convSoftmax
  positivity

lemma convSoftmax_sum_one {b r c f g : ℕ} (w : ConvW b r c f g) (p : Fin b)
    (t : Fin g) (q0 : Fin r) (k0 : Fin c) (s0 : Fin f) :
    (∑ q, ∑ k, ∑ s, convSoftmax w p q k s t) = 1 := by
  have hD := exp_sum3_pos w p t q0 k0 s0
  simp only [convSoftmax, ← Finset.sum_div]
  exact div_self (ne_of_gt hD)

lemma nnSoftmax_nonneg {N : ℕ} (v : Fin N → ℝ) (j : Fin N) :
    0 ≤ nnSoftmax v j := by
  unfold nnSoftmax
  positivity

lemma nnSoftmax_sum_one {N : ℕ} (v : Fin N → ℝ) (j0 : Fin N) :
    (∑ j, nnSoftmax v j) = 1 := by
  have hD : 0 < ∑ k2, Real.exp (v k2) :=
    Finset.sum_pos (fun k2 _ => Real.exp_pos _) ⟨j0, Finset.mem_univ j0⟩
  simp only [nnSoftmax, ← Finset.sum_div]
  exact div_self (ne_of_gt hD)

/-- C1 counterexample: for the all-zero routing weight tensor of shape
`(batch, rows, cols, caps_filters, input_caps_filters) = (1, 1, 1, 1, 2)`
(exactly the initialization the routing performs at line 146), the sum of the
coupling coefficients over the `(row, col, input-capsule-filter)` combination
at the fixed batch/output-capsule-filter pair `(0, 0)` is `2`, not `1`:
`softmax` over axes `(1, 2, 3)` does not normalize over the
`input_caps_filters` axis. -/
theorem conv_coupling_claimed_sum_cex :
    (∑ q : Fin 1, ∑ k : Fin 1, ∑ t : Fin 2,
      convSoftmax ((fun _ _ _ _ _ => (0 : ℝ)) : ConvW 1 1 1 1 2) 0 q k 0 t) = 2 := by
  norm_num [convSoftmax, Real.exp_zero, Fin.sum_univ_one, Fin.sum_univ_two]

/-- C1 (amended): in the convolutional routing layer the routing weight
tensor has shape `(batch, rows, cols, caps_filters, input_caps_filters)` (the
type `ConvW`), and the coupling coefficients produced by softmax over axes
`(1, 2, 3)` sum to `1`, for every fixed `(batch, input-capsule-filter)` pair,
across the joint `(row, col, output-capsule-filter)` combination. -/
theorem conv_coupling_sum_amended (b r c f g : ℕ)
    (w : ConvW b (r + 1) (c + 1) (f + 1) g) (p : Fin b) (t : Fin g) :
    (∑ q, ∑ k, ∑ s, convSoftmax w p q k s t) = 1 :=
  convSoftmax_sum_one w p t 0 0 0

/-- C5: for any input logits (all-zero and large-magnitude included), the
coupling coefficients of both routing softmaxes — `CapsConv.softmax` over
axes `(1, 2, 3)` and the dense layer's `tf.nn.softmax` over the `num_caps`
axis — are non-negative and sum to exactly `1` across the normalized axis
set, for every fixed index of the remaining axes. -/
theorem coupling_coefficients_normalized (b r c f g : ℕ) (w : ConvW b r c f g)
    (p : Fin b) (t : Fin g) (q : Fin r) (k : Fin c) (s : Fin f)
    (N : ℕ) (v : Fin N → ℝ) (j : Fin N) :
    0 ≤ convSoftmax w p q k s t ∧
    (∑ q2, ∑ k2, ∑ s2, convSoftmax w p q2 k2 s2 t) = 1 ∧
    0 ≤ nnSoftmax v j ∧ (∑ j2, nnSoftmax v j2) = 1 :=
  ⟨convSoftmax_nonneg w p q k s t, convSoftmax_sum_one w p t q k s,
    nnSoftmax_nonneg v j, nnSoftmax_sum_one v j⟩

/-- `tf.reduce_max(data, axis=(1, 2, 3), keepdims=True)` over the axes the
routing softmax normalizes: the maximum over the
`(rows, cols, caps_filters)` axes at a fixed batch and `input_caps_filters`
index.  (Not present in the source; used to state C6.) -/
noncomputable def reduceMax123 {b r c f g : ℕ} [Nonempty (Fin r)]
    [Nonempty (Fin c)] [Nonempty (Fin f)]
    (w : ConvW b r c f g) (p : Fin b) (t : Fin g) : ℝ :=
  Finset.univ.sup' Finset.univ_nonempty
    fun x : Fin r × Fin c × Fin f => w p x.1 x.2.1 x.2.2 t

lemma convSoftmax_shift {b r c f g : ℕ} (w : ConvW b r c f g)
    (M : Fin b → Fin g → ℝ) :
    convSoftmax (fun p q k s t => w p q k s t - M p t) = convSoftmax w := by
  funext p q k s t
  have hE : Real.exp (M p t) ≠ 0 := Real.exp_ne_zero _
  simp only [convSoftmax, Real.exp_sub, ← Finset.sum_div]
  rw [div_div, mul_comm (Real.exp (M p t)), div_mul_cancel₀ _ hE]

/-- C6: the routing softmax is invariant under subtracting, from every entry,
the maximum of the tensor over the normalized axes `(1, 2, 3)`: in exact
arithmetic `convSoftmax (x - max x) = convSoftmax x`, so overflow-protection
max subtraction would not change the output. -/
theorem softmax_max_shift_invariant (b r c f g : ℕ)
    (w : ConvW b (r + 1) (c + 1) (f + 1) g) :
    convSoftmax (fun p q k s t => w p q k s t - reduceMax123 w p t) =
      convSoftmax w :=
  convSoftmax_shift w fun p t => reduceMax123 w p t

lemma squash_norm_eq {n : ℕ} (v : Fin n → ℝ) :
    vecNorm (squash v) =
      squash_factor v *
        (Real.sqrt (square_sum v) / Real.sqrt (square_sum v + kerasEpsilon)) := by
  have hF : 0 ≤ squash_factor v :=
    div_nonneg (square_sum_nonneg v) (by linarith [square_sum_nonneg v])
  have hR : 0 ≤ Real.sqrt (square_sum v + kerasEpsilon) := Real.sqrt_nonneg _
  have h1 : square_sum (squash v) =
      (squash_factor v / Real.sqrt (square_sum v + kerasEpsilon)) ^ 2 *
        square_sum v := by
    simp only [square_sum, squash, unit_vector]
    rw [Finset.mul_sum]
    exact Finset.sum_congr rfl fun i _ => by ring
  unfold vecNorm
  rw [h1, Real.sqrt_mul (sq_nonneg _), Real.sqrt_sq (div_nonneg hF hR),
    div_mul_eq_mul_div, mul_div_assoc]

/-- C4: each `squash`ed vector has the shape of the input, Euclidean length
strictly below `1`, length within the stability epsilon of
`‖v‖² / (1 + ‖v‖²)` (here `square_sum v = ‖v‖²`), and is a non-negative
scalar multiple of the input whenever the input is not the zero vector. -/
theorem squash_norm_bound (n : ℕ) (v : Fin n → ℝ) :
    vecNorm (squash v) < 1 ∧
    |vecNorm (squash v) - square_sum v / (1 + square_sum v)| ≤ kerasEpsilon ∧
    ((v ≠ fun _ => 0) → ∃ a, 0 ≤ a ∧ squash v = fun i => a * v i) := by
  have hs : 0 ≤ square_sum v := square_sum_nonneg v
  have hε : 0 < kerasEpsilon := kerasEpsilon_pos
  have hsε : 0 < square_sum v + kerasEpsilon := by linarith
  have hR : 0 < Real.sqrt (square_sum v + kerasEpsilon) := Real.sqrt_pos.mpr hsε
  have hF_eq : squash_factor v = square_sum v / (1 + square_sum v) := rfl
  have hF0 : 0 ≤ squash_factor v := by
    rw [hF_eq]
    exact div_nonneg hs (by linarith)
  have hF1 : squash_factor v < 1 := by
    rw [hF_eq, div_lt_one (by linarith)]
    linarith
  have hT0 : 0 ≤ Real.sqrt (square_sum v) / Real.sqrt (square_sum v + kerasEpsilon) :=
    div_nonneg (Real.sqrt_nonneg _) hR.le
  have hT1 : Real.sqrt (square_sum v) / Real.sqrt (square_sum v + kerasEpsilon) ≤ 1 := by
    rw [div_le_one hR]
    exact Real.sqrt_le_sqrt (by linarith)
  have hN := squash_norm_eq v
  refine ⟨?_, ?_, ?_⟩
  · rw [hN]
    calc squash_factor v *
        (Real.sqrt (square_sum v) / Real.sqrt (square_sum v + kerasEpsilon)) ≤
          squash_factor v * 1 := mul_le_mul_of_nonneg_left hT1 hF0
      _ = squash_factor v := mul_one _
      _ < 1 := hF1
  · rw [hN, ← hF_eq, abs_sub_comm]
    have hmono : squash_factor v *
        (Real.sqrt (square_sum v) / Real.sqrt (square_sum v + kerasEpsilon)) ≤
          squash_factor v := by
      calc squash_factor v *
          (Real.sqrt (square_sum v) / Real.sqrt (square_sum v + kerasEpsilon)) ≤
            squash_factor v * 1 := mul_le_mul_of_nonneg_left hT1 hF0
        _ = squash_factor v := mul_one _
    rw [abs_of_nonneg (by linarith)]
    have hT2 : (Real.sqrt (square_sum v) / Real.sqrt (square_sum v + kerasEpsilon)) ^ 2 =
        square_sum v / (square_sum v + kerasEpsilon) := by
      rw [div_pow, Real.sq_sqrt hs, Real.sq_sqrt hsε.le]
    have h2 : 1 - Real.sqrt (square_sum v) / Real.sqrt (square_sum v + kerasEpsilon) ≤
        1 - (Real.sqrt (square_sum v) / Real.sqrt (square_sum v + kerasEpsilon)) ^ 2 := by
      nlinarith [mul_nonneg hT0 (sub_nonneg.mpr hT1)]
    have h3 : (1 : ℝ) - square_sum v / (square_sum v + kerasEpsilon) =
        kerasEpsilon / (square_sum v + kerasEpsilon) := by
      field_simp
    have h4 : squash_factor v * (kerasEpsilon / (square_sum v + kerasEpsilon)) ≤
        kerasEpsilon := by
      rw [hF_eq, div_mul_div_comm, div_le_iff₀ (by positivity)]
      nlinarith [mul_pos hε hε, mul_nonneg (sq_nonneg (square_sum v)) hε.le,
        mul_nonneg (mul_nonneg hs hε.le) hε.le]
    calc squash_factor v -
        squash_factor v *
          (Real.sqrt (square_sum v) / Real.sqrt (square_sum v + kerasEpsilon)) =
          squash_factor v *
            (1 - Real.sqrt (square_sum v) / Real.sqrt (square_sum v + kerasEpsilon)) := by
            ring
      _ ≤ squash_factor v *
            (1 - (Real.sqrt (square_sum v) / Real.sqrt (square_sum v + kerasEpsilon)) ^ 2) :=
            mul_le_mul_of_nonneg_left h2 hF0
      _ = squash_factor v * (kerasEpsilon / (square_sum v + kerasEpsilon)) := by
            rw [hT2, h3]
      _ ≤ kerasEpsilon := h4
  · intro _
    refine ⟨squash_factor v / Real.sqrt (square_sum v + kerasEpsilon),
      div_nonneg hF0 hR.le, ?_⟩
    funext i
    simp only [squash, unit_vector]
    ring

/-- Witness for C4 at the concrete input `v = (1) : Fin 1 → ℝ`. -/
theorem squash_norm_bound_witness :
    vecNorm (squash (fun _ : Fin 1 => (1 : ℝ))) < 1 ∧
    |vecNorm (squash (fun _ : Fin 1 => (1 : ℝ))) -
      square_sum (fun _ : Fin 1 => (1 : ℝ)) /
        (1 + square_sum (fun _ : Fin 1 => (1 : ℝ)))| ≤ kerasEpsilon ∧
    (∃ a, 0 ≤ a ∧
      squash (fun _ : Fin 1 => (1 : ℝ)) = fun i => a * (fun _ : Fin 1 => (1 : ℝ)) i) := by
  have h := squash_norm_bound 1 (fun _ => (1 : ℝ))
  refine ⟨h.1, h.2.1, h.2.2 ?_⟩
  intro hz
  have h0 := congrFun hz 0
  norm_num at h0

/-- `Except` success test (`tf` raises vs. returns). -/
def exceptOk {ε α : Type} : Except ε α → Bool
  | Except.ok _ => true
  | Except.error _ => false

/-- Extract the squash-application counter from a routing result. -/
def okCount {α : Type} : Except String (α × ℕ) → Option ℕ
  | Except.ok x => some x.2
  | Except.error _ => none

/-- The loop body of `CapsConv.dynamic_routing` (lines 150-160), iterated
`m` times on a state `(w, routed_prediction, squash count)`.  Each iteration:
`cc = softmax(w, axis=(1,2,3))`;
`routed = einsum('pqrst,pqrtsu->pqrsu', cc, prediction)` then `squash` over
`caps_dims` (one `Activations.squash` application, counted);
`agreement = einsum('pqrst,pqrust->pqrsu', routed, prediction)`;
`w = w + agreement`. -/
noncomputable def convLoop {b r c f g d : ℕ} (prediction : ConvPred b r c g f d) :
    ℕ → ConvW b r c f g × Option (ConvRouted b r c f d) × ℕ →
      ConvW b r c f g × Option (ConvRouted b r c f d) × ℕ
  | 0, st0 => st0
  | m + 1, st0 =>
    let st := convLoop prediction m st0
    let w := st.1
    let cc := convSoftmax w
    let routed : ConvRouted b r c f d :=
      fun p q k s u => ∑ t, cc p q k s t * prediction p q k t s u
    let routed_prediction : ConvRouted b r c f d :=
      fun p q k s => squash (routed p q k s)
    let agreement : ConvW b r c f g :=
      fun p q k s u => ∑ t, routed_prediction p q k s t * prediction p q k u s t
    (fun p q k s t => w p q k s t + agreement p q k s t,
      some routed_prediction, st.2.2 + 1)

/-- `CapsConv.dynamic_routing` (lines 129-162): asserts `routing_iter > 0`
(`tf.assert_greater`, line 142) before any routing work, initializes the
routing weights to zero (line 146) and the routed prediction to the `...`
placeholder (`none`), then runs the loop.  The second component of the
result counts the `Activations.squash` applications performed. -/
noncomputable def convDynamicRouting {b r c f g d : ℕ} (routing_iter : ℤ)
    (prediction : ConvPred b r c g f d) :
    Except String (Option (ConvRouted b r c f d) × ℕ) :=
  if routing_iter ≤ 0 then
    Except.error "Dynamic Routing should have >= 1 iterations"
  else
    let w0 : ConvW b r c f g := fun _ _ _ _ _ => 0
    let res := convLoop prediction routing_iter.toNat (w0, none, 0)
    Except.ok (res.2.1, res.2.2)

/-- Shape of the dense routing weight tensor (line 234) with its trailing
`(1, 1)` axes dropped: `(batch, p_num_caps, num_caps)`. -/
abbrev DenseW (b P N : ℕ) := Fin b → Fin P → Fin N → ℝ

/-- Shape of the dense prediction tensor (line 221) with its trailing `1`
axis dropped: `(batch, p_num_caps, num_caps, dim_caps)`. -/
abbrev DensePred (b P N d : ℕ) := Fin b → Fin P → Fin N → Fin d → ℝ

/-- Shape of the dense routed prediction (line 231) with the kept-dim `1`
axis and the trailing `1` axis dropped: `(batch, num_caps, dim_caps)`. -/
abbrev DenseRouted (b N d : ℕ) := Fin b → Fin N → Fin d → ℝ

/-- `routing_step` inside `CapsDense.dynamic_routing` (lines 217-231):
softmax of the weights over the `num_caps` axis, elementwise multiplication
with the prediction, sum over the `p_num_caps` axis, and one `squash` over
`dim_caps`. -/
noncomputable def routing_step {b P N d : ℕ} (routing_weights : DenseW b P N)
    (prediction : DensePred b P N d) : DenseRouted b N d :=
  let prob_w : DenseW b P N := fun p i j => nnSoftmax (routing_weights p i) j
  let w_pred : DensePred b P N d := fun p i j l => prob_w p i j * prediction p i j l
  let w_prediction_sum : DenseRouted b N d := fun p j l => ∑ i, w_pred p i j l
  fun p j => squash (w_prediction_sum p j)

/-- The loop body of `CapsDense.dynamic_routing` (lines 238-246), iterated
`m` times on a state `(routing_weights, routed_prediction, squash count)`:
tile the routed prediction across `p_num_caps`, contract it against the
prediction over `dim_caps` (`tf.matmul(..., transpose_a=True)`), add the
agreement into the weights, and recompute the routed prediction with
`routing_step` (one further `squash` application, counted). -/
noncomputable def denseLoop {b P N d : ℕ} (prediction : DensePred b P N d) :
    ℕ → DenseW b P N × DenseRouted b N d × ℕ →
      DenseW b P N × DenseRouted b N d × ℕ
  | 0, st0 => st0
  | m + 1, st0 =>
    let st := denseLoop prediction m st0
    let routing_weights := st.1
    let routed_prediction := st.2.1
    let tiled : DensePred b P N d := fun p _ j l => routed_prediction p j l
    let agreement : DenseW b P N :=
      fun p i j => ∑ l, prediction p i j l * tiled p i j l
    let routing_weights2 : DenseW b P N :=
      fun p i j => routing_weights p i j + agreement p i j
    (routing_weights2, routing_step routing_weights2 prediction, st.2.2 + 1)

/-- `CapsDense.dynamic_routing` (lines 214-248): no validation of
`routing_iter` is performed.  The routing weights are initialized to zero
(line 234), an initial ("warm-up") routed prediction is computed with
`routing_step` (line 236, one `squash` application), and then the loop runs
`range(routing_iter)` times — zero times when `routing_iter ≤ 0`.  The
second component of the result counts the `Activations.squash`
applications performed. -/
noncomputable def denseDynamicRouting {b P N d : ℕ} (routing_iter : ℤ)
    (prediction : DensePred b P N d) :
    Except String (DenseRouted b N d × ℕ) :=
  let routing_weights : DenseW b P N := fun _ _ _ => 0
  let routed_prediction := routing_step routing_weights prediction
  let res := denseLoop prediction routing_iter.toNat
    (routing_weights, routed_prediction, 1)
  Except.ok (res.2.1, res.2.2)

lemma convLoop_count {b r c f g d : ℕ} (prediction : ConvPred b r c g f d)
    (m : ℕ) (st0 : ConvW b r c f g × Option (ConvRouted b r c f d) × ℕ) :
    (convLoop prediction m st0).2.2 = st0.2.2 + m := by
  induction m with
  | zero => rfl
  | succ m ih =>
    show (convLoop prediction m st0).2.2 + 1 = st0.2.2 + (m + 1)
    rw [ih]
    omega

lemma denseLoop_count {b P N d : ℕ} (prediction : DensePred b P N d)
    (m : ℕ) (st0 : DenseW b P N × DenseRouted b N d × ℕ) :
    (denseLoop prediction m st0).2.2 = st0.2.2 + m := by
  induction m with
  | zero => rfl
  | succ m ih =>
    show (denseLoop prediction m st0).2.2 + 1 = st0.2.2 + (m + 1)
    rw [ih]
    omega

/-- C2 counterexample: the dense layer's `dynamic_routing` called with
`routing_iter = 0` (on a concrete all-zero prediction of shape
`(1, 1, 1, 1)`) does not raise: it returns successfully, having already
performed the warm-up routing step (one `squash` application) — contradicting
the claim that both routing layers raise before any routing work when
`routing_iter` is zero or negative. -/
theorem dense_routing_no_validation_cex :
    exceptOk (denseDynamicRouting 0 ((fun _ _ _ _ => 0) : DensePred 1 1 1 1)) =
      true ∧
    okCount (denseDynamicRouting 0 ((fun _ _ _ _ => 0) : DensePred 1 1 1 1)) =
      some 1 :=
  ⟨rfl, rfl⟩

/-- C2 (amended): the convolutional routing layer's `dynamic_routing` raises
(before any routing work) exactly when `routing_iter ≤ 0` and succeeds for
every `routing_iter ≥ 1`; the dense layer's `dynamic_routing` performs no
such validation and never raises, for any `routing_iter` including zero and
negative values. -/
theorem routing_iter_validation_amended (nIter : ℤ) (b r c f g d bD P nD dD : ℕ)
    (pred : ConvPred b r c g f d) (dpred : DensePred bD P nD dD) :
    (exceptOk (convDynamicRouting nIter pred) = true ↔ 1 ≤ nIter) ∧
    exceptOk (denseDynamicRouting nIter dpred) = true := by
  constructor
  · unfold convDynamicRouting
    split_ifs with h
    · simp only [exceptOk]
      constructor
      · intro hfalse
        exact absurd hfalse (by simp)
      · intro h1
        omega
    · simp only [exceptOk]
      constructor
      · intro _
        omega
      · intro _
        trivial
  · rfl

/-- C3: for every `routing_iter ≥ 1`, one invocation of the convolutional
layer's `dynamic_routing` applies `Activations.squash` exactly
`routing_iter` times, while one invocation of the dense layer's
`dynamic_routing` applies it exactly `routing_iter + 1` times (the warm-up
application before the loop plus one per loop iteration). -/
theorem routing_squash_count (nIter : ℤ) (h : 1 ≤ nIter)
    (b r c f g d bD P nD dD : ℕ)
    (pred : ConvPred b r c g f d) (dpred : DensePred bD P nD dD) :
    okCount (convDynamicRouting nIter pred) = some nIter.toNat ∧
    okCount (denseDynamicRouting nIter dpred) = some (nIter.toNat + 1) := by
  constructor
  · unfold convDynamicRouting
    rw [if_neg (by omega)]
    simp only [okCount]
    rw [convLoop_count]
    simp
  · unfold denseDynamicRouting
    simp only [okCount]
    rw [denseLoop_count]
    rw [Nat.add_comm]

/-- Witness for C3 at `routing_iter = 1`: the convolutional routing performs
`1` squash application and the dense routing performs `2`. -/
theorem routing_squash_count_witness :
    okCount (convDynamicRouting 1 ((fun _ _ _ _ _ _ => 0) : ConvPred 1 1 1 1 1 1)) =
      some ((1 : ℤ).toNat) ∧
    okCount (denseDynamicRouting 1 ((fun _ _ _ _ => 0) : DensePred 1 1 1 1)) =
      some ((1 : ℤ).toNat + 1) :=
  routing_squash_count 1 (by decide) 1 1 1 1 1 1 1 1 1 1
    ((fun _ _ _ _ _ _ => 0) : ConvPred 1 1 1 1 1 1)
    ((fun _ _ _ _ => 0) : DensePred 1 1 1 1)

/-- `CapsConv.build` (lines 97-109): `tf.assert_equal(input_shape.rank, 5)`
with the message `Expected Tensor of Rank = 5, Got Rank = {rank}`; on a
rank-5 shape it reads `input_caps_filters = input_shape[3]` and
`input_caps_dims = input_shape[4]`. -/
def convBuild (input_shape : List ℕ) : Except String (ℕ × ℕ) :=
  match input_shape with
  | [_, _, _, icf, icd] => Except.ok (icf, icd)
  | s => Except.error
      ("Expected Tensor of Rank = 5, Got Rank = " ++ toString s.length)

/-- `CapsDense.build` (lines 199-212): the same rank-5 assertion, then
`input_caps = input_shape[1] * input_shape[2] * input_shape[3]` and
`input_caps_dims = input_shape[4]`. -/
def denseBuild (input_shape : List ℕ) : Except String (ℕ × ℕ) :=
  match input_shape with
  | [_, rr, cc, icf, icd] => Except.ok (rr * cc * icf, icd)
  | s => Except.error
      ("Expected Tensor of Rank = 5, Got Rank = " ++ toString s.length)

/-- C9: for both routing layers, `build(input_shape)` raises (with an
explicit message) exactly when the input shape's rank differs from `5`, and
succeeds on every rank-5 input shape. -/
theorem build_rank_check (s : List ℕ) :
    (exceptOk (convBuild s) = true ↔ s.length = 5) ∧
    (exceptOk (denseBuild s) = true ↔ s.length = 5) := by
  match s with
  | [] => exact ⟨by simp [convBuild, exceptOk], by simp [denseBuild, exceptOk]⟩
  | [x1] => exact ⟨by simp [convBuild, exceptOk], by simp [denseBuild, exceptOk]⟩
  | [x1, x2] => exact ⟨by simp [convBuild, exceptOk], by simp [denseBuild, exceptOk]⟩
  | [x1, x2, x3] =>
    exact ⟨by simp [convBuild, exceptOk], by simp [denseBuild, exceptOk]⟩
  | [x1, x2, x3, x4] =>
    exact ⟨by simp [convBuild, exceptOk], by simp [denseBuild, exceptOk]⟩
  | [x1, x2, x3, x4, x5] =>
    exact ⟨by simp [convBuild, exceptOk], by simp [denseBuild, exceptOk]⟩
  | x1 :: x2 :: x3 :: x4 :: x5 :: x6 :: tl =>
    refine ⟨?_, ?_⟩ <;>
      simp [convBuild, denseBuild, exceptOk, List.length_cons]
